import Mathlib

/-!
Verification of the mysql-sync change-capture / transport / apply pipeline.

The definitions below are a shallow embedding of the TypeScript sources:
* `src/utils/mqtt-hard-disk-store.ts` (`HardDiskQueue`),
* `src/mqtt/mqtt.ts` (`MqttManager` and the JSON schemas of
  `src/configuration-scheme.ts`),
* `src/database/database-manager.ts` (`DatabaseManager`),
* `src/transformer.ts` (`TransformerManager`).

Modelling conventions:
* wall-clock instants (`new Date().getTime()`) are `Nat` milliseconds and are
  passed explicitly as a `now` argument;
* the JSON-schema constant `definitions.date.minimum = new Date().getTime()`
  (evaluated once when the schema module is loaded) is the explicit
  `loadTime` argument of the validators;
* `JSON.stringify` is an explicit `encode` function argument;
* thrown exceptions are `Except.error` carrying the thrown message;
* JavaScript objects used as string-keyed records (`connectedClients`,
  `remoteClientQueues`, row entities) are association lists in key order,
  which is how JS objects enumerate;
* the on-disk contents of each `HardDiskQueue` is the list it persists.
-/

namespace MysqlSync

/-- A MySQL cell value as it appears in a row entity. -/
inductive SqlValue where
  | str (s : String)
  | num (n : Int)
  | null
  deriving DecidableEq, Repr

/-- A row entity: a JS object mapping column names to values
(association list in property order). -/
abbrev SqlEntity := List (String × SqlValue)

/-- JS object property read `entity[key]` (first binding wins; JS objects
have unique keys). -/
def entityGet (e : SqlEntity) (k : String) : Option SqlValue :=
  match e with
  | [] => none
  | (k', v) :: rest => if k' == k then some v else entityGet rest k

/-- JS object property lookup on a string-keyed record. -/
def lookupAssoc {β : Type} : List (String × β) → String → Option β
  | [], _ => none
  | (k', v) :: rest, k => if k' == k then some v else lookupAssoc rest k

/-- JS object property assignment `obj[k] = v`: updates in place, appends a
new binding at the end when the key is absent. -/
def setAssoc {β : Type} : List (String × β) → String → β → List (String × β)
  | [], k, v => [(k, v)]
  | (k', v') :: rest, k, v =>
    if k' == k then (k', v) :: rest else (k', v') :: setAssoc rest k v

/-- JS `delete obj[k]`. -/
def removeAssoc {β : Type} (l : List (String × β)) (k : String) : List (String × β) :=
  l.filter (fun p => !(p.1 == k))

/-! ## Durable queue (`HardDiskQueue`, src/utils/mqtt-hard-disk-store.ts)

The queue state is the JSON array persisted in its file. -/

/-- `push(entity)`: read the file, `queue.push(entity)`, write it back. -/
def HardDiskQueue.push {α : Type} (q : List α) (x : α) : List α := q ++ [x]

/-- `poll()`: read the file; `null` when empty, otherwise remove and return
`queue[0]` (via `splice(0, 1)`). Returns the polled item and the new file
contents. -/
def HardDiskQueue.poll {α : Type} (q : List α) : Option α × List α :=
  match q with
  | [] => (none, [])
  | x :: rest => (some x, rest)

/-- Repeatedly `poll()` until `null`, collecting the returned items in order.
The fuel bounds the number of polls; `pollAll` supplies enough of it. -/
def HardDiskQueue.pollAllFuel {α : Type} : Nat → List α → List α
  | 0, _ => []
  | fuel + 1, q =>
    match poll q with
    | (none, _) => []
    | (some x, rest) => x :: pollAllFuel fuel rest

/-- All items a client obtains by polling the queue until it reports empty. -/
def HardDiskQueue.pollAll {α : Type} (q : List α) : List α := pollAllFuel q.length q

/-! ## Wire messages and JSON-schema validation
(src/mqtt/mqtt.ts message interfaces, src/configuration-scheme.ts schemas) -/

/-- The raw shape of a `/change/<client>` JSON payload (`remoteChangeScheme`):
only `sender`, `table` and `entity` are required, `id` and `date` may be
absent (`none`). `entity = none` is JSON `null`. -/
structure RawChange where
  sender : String
  table : String
  id : Option String
  date : Option Nat
  entity : Option SqlEntity
  deriving DecidableEq, Repr

/-- The relevant fields of an info message's `args` object. A field that the
incoming JSON object does not carry is `none`; `additionalProperties: false`
in an args schema therefore demands `none` for every field outside that
schema. -/
structure RawInfoArgs where
  untilTime : Option Nat
  table : Option String
  id : Option String
  date : Option Nat
  message : Option String
  deriving DecidableEq, Repr

/-- The raw shape of an `/info` or `/info/<client>` JSON payload
(`infoMessageScheme`): `sender`, `message` and an `args` object. -/
structure RawInfo where
  sender : String
  message : String
  args : RawInfoArgs
  deriving DecidableEq, Repr

/-- An inbound JSON payload after `JSON.parse`, restricted to the shapes the
schemas can accept; any other JSON value fails every schema and is dropped,
which the catch-all validation branches below reproduce. -/
inductive RawPayload where
  | change (c : RawChange)
  | info (i : RawInfo)
  deriving DecidableEq, Repr

/-- The `sender` property of an inbound payload. -/
def payloadSender : RawPayload → String
  | .change c => c.sender
  | .info i => i.sender

/-- `definitions.clientName`: pattern `^[a-zA-Z0-9-_]{2,32}$`. -/
def isClientNameChar (c : Char) : Bool :=
  (c ≥ 'a' && c ≤ 'z') || (c ≥ 'A' && c ≤ 'Z') || (c ≥ '0' && c ≤ '9')
    || c == '-' || c == '_'

/-- `definitions.clientName` validation. -/
def validClientName (s : String) : Bool :=
  decide (2 ≤ s.length) && decide (s.length ≤ 32) && s.data.all isClientNameChar

/-- `definitions.tableName`: a string of 1 to 128 characters. -/
def validTableName (s : String) : Bool :=
  decide (1 ≤ s.length) && decide (s.length ≤ 128)

/-- `definitions.nonEmptyString`: `minLength: 1`. -/
def validNonEmpty (s : String) : Bool := decide (1 ≤ s.length)

/-- `definitions.date`: `minimum: new Date().getTime()` — the minimum is the
wall-clock instant at which the schema module was loaded (`loadTime`). -/
def validDate (loadTime d : Nat) : Bool := decide (loadTime ≤ d)

/-- Validation of an optional JSON property: absent properties pass, present
ones must satisfy the property's schema. -/
def validOpt {β : Type} (p : β → Bool) : Option β → Bool
  | none => true
  | some b => p b

/-- A required JSON property: must be present and satisfy its schema. -/
def validReq {β : Type} (p : β → Bool) : Option β → Bool
  | none => false
  | some b => p b

/-- `remoteChangeScheme`: `sender`, `table`, `entity` required; `id` and
`date` optional; `entity` of JSON type object or null (always satisfied by
`RawChange.entity`). -/
def validateRemoteChange (loadTime : Nat) (c : RawChange) : Bool :=
  validClientName c.sender && validTableName c.table
    && validOpt validNonEmpty c.id && validOpt (validDate loadTime) c.date

/-- `infoMessageScheme`: `sender` a client name, `message` one of the four
enum values, `args` an object (always satisfied by `RawInfoArgs`). -/
def validateInfoMessage (i : RawInfo) : Bool :=
  validClientName i.sender
    && (i.message == "connected" || i.message == "data_received"
        || i.message == "error" || i.message == "connection_lost")

/-- `connectedInfoMessageArgsScheme`: `until` required with the date minimum;
`additionalProperties: false` rejects any other field. -/
def validateConnectedArgs (loadTime : Nat) (a : RawInfoArgs) : Bool :=
  validReq (validDate loadTime) a.untilTime
    && a.table.isNone && a.id.isNone && a.date.isNone && a.message.isNone

/-- `dataReceivedInfoMessageArgsScheme`: `table`, `id`, `date` required;
`additionalProperties: false` rejects any other field. -/
def validateDataReceivedArgs (loadTime : Nat) (a : RawInfoArgs) : Bool :=
  validReq validTableName a.table && validReq validNonEmpty a.id
    && validReq (validDate loadTime) a.date
    && a.untilTime.isNone && a.message.isNone

/-- `errorInfoMessageArgsScheme`: no field is marked required; each present
field must satisfy its schema, and `additionalProperties: false` rejects
fields outside the schema (here only `until`). -/
def validateErrorArgs (loadTime : Nat) (a : RawInfoArgs) : Bool :=
  validOpt validTableName a.table && validOpt validNonEmpty a.id
    && validOpt (validDate loadTime) a.date && validOpt validNonEmpty a.message
    && a.untilTime.isNone

/-! ## Application events (src/application.ts `ApplicationEvents`) -/

/-- A change flowing through the transformer and database stages
(`DatabaseChange` in src/application.ts). -/
structure DatabaseChange where
  sender : String
  table : String
  id : String
  date : Nat
  entity : Option SqlEntity
  deriving DecidableEq, Repr

/-- `sync_status`'s status enum. -/
inductive SyncStatus where
  | successful
  | pending
  | error
  deriving DecidableEq, Repr

/-- A `remote-status-change` payload as built in `receivedMessage`
(`{...message.args, sender, status}`); since `errorInfoMessageArgsScheme`
requires no field, the spread fields are optional. -/
structure StatusChangeMsg where
  sender : String
  status : SyncStatus
  table : Option String
  id : Option String
  date : Option Nat
  message : Option String
  deriving DecidableEq, Repr

/-- The named events of the application event hub. -/
inductive AppEvent where
  | localChange (table id : String) (entity : Option SqlEntity) (except : Option String)
  | localSaveChange (data : DatabaseChange)
  | localSaveSuccessful (sender table id : String) (date : Nat)
  | localSaveFailed (sender table id : String) (date : Nat) (message : String)
  | remoteChange (msg : RawChange)
  | remoteSendChange (table id : String) (entity : Option SqlEntity) (remote : String)
  | remoteStatusChange (msg : StatusChangeMsg)
  deriving DecidableEq, Repr

/-! ## Bus gateway state (src/mqtt/mqtt.ts `MqttManager`) -/

/-- A payload handed to `MqttManager.publish`. The manager publishes info
messages (built by `error`, `dataReceived`, `sendConnectedUpdate`) and change
messages (built by `sendChange`); queued payloads are replayed verbatim. -/
inductive BusMessage where
  | infoConnected (sender : String) (untilTime : Nat)
  | infoConnectionLost (sender : String)
  | infoDataReceived (sender table : String) (id : Option String) (date : Option Nat)
  | infoError (sender table : String) (id : Option String) (date : Option Nat) (message : String)
  | change (sender table id : String) (entity : Option SqlEntity) (date : Nat)
  deriving DecidableEq, Repr

/-- An entry of a per-peer offline queue (`QueueItem` in mqtt.ts). -/
structure QueueItem where
  topic : String
  payload : BusMessage
  deriving DecidableEq, Repr

/-- The mutable state of `MqttManager` together with its constructor
arguments and the observable bus effects. `connection` is whether
`_connection` is non-null; `published` records `connection.publish` calls in
order as (topic, encoded payload); queue entries map each
`remote-<peer>` durable queue (keyed by peer name) to its contents. -/
structure MqttState where
  clientName : String
  updateInterval : Nat
  receiveTables : List String
  connection : Bool
  connectedClients : List (String × Nat)
  remoteClientQueues : List (String × List QueueItem)
  nextActiveUpdate : Option Nat
  published : List (String × String)
  deriving DecidableEq, Repr

/-- `isClientConnected(client)`: the presence map has an entry for the client
and the current instant is before its recorded expiry. -/
def isClientConnected (connectedClients : List (String × Nat)) (now : Nat)
    (client : String) : Bool :=
  match lookupAssoc connectedClients client with
  | none => false
  | some untilTime => decide (now < untilTime)

/-- `publish(topic, payload, remoteClient)`. Throws when the manager holds no
connection. With a remote client that is not presently connected, the payload
is appended to that client's durable queue (created lazily; absence of a map
entry is the empty on-disk queue) and nothing reaches the bus. Otherwise the
payload is JSON-encoded (`encode` stands for `JSON.stringify`) and published. -/
def MqttState.publish (encode : BusMessage → String) (now : Nat) (st : MqttState)
    (topic : String) (payload : BusMessage) (remoteClient : Option String) :
    Except String MqttState :=
  if !st.connection then
    .error "MQTT is not connected!"
  else
    match remoteClient with
    | some rc =>
      if !isClientConnected st.connectedClients now rc then
        .ok { st with
          remoteClientQueues :=
            setAssoc st.remoteClientQueues rc
              (HardDiskQueue.push ((lookupAssoc st.remoteClientQueues rc).getD [])
                ⟨topic, payload⟩) }
      else
        .ok { st with published := st.published ++ [(topic, encode payload)] }
    | none =>
      .ok { st with published := st.published ++ [(topic, encode payload)] }

/-- `sendConnectedUpdate()`: set `nextActiveUpdate` to
`now + updateInterval + 2000` and publish a `connected` info message on
`/info` whose `args.until` is `nextActiveUpdate + updateInterval + 1000`. -/
def MqttState.sendConnectedUpdate (encode : BusMessage → String) (now : Nat)
    (st : MqttState) : Except String MqttState :=
  let next := now + st.updateInterval + 2000
  MqttState.publish encode now { st with nextActiveUpdate := some next } "/info"
    (.infoConnected st.clientName (next + st.updateInterval + 1000)) none

/-- `tick()`. Reading `this.connection` throws when uninitialized; with the
bus disconnected the tick does nothing; otherwise a missing (or falsy, i.e.
zero) `nextActiveUpdate`, or one in the past, triggers a connected update. -/
def MqttState.tick (encode : BusMessage → String) (now : Nat)
    (busConnected : Bool) (st : MqttState) : Except String MqttState :=
  if !st.connection then
    .error "mqtt manager is not initialized"
  else if !busConnected then
    .ok st
  else
    match st.nextActiveUpdate with
    | none => MqttState.sendConnectedUpdate encode now st
    | some t =>
      if t == 0 || decide (now > t) then
        MqttState.sendConnectedUpdate encode now st
      else
        .ok st

/-- `error(data)`: publish an `error` info message to `/info/<data.sender>`
addressed to that sender. The args echo the failed change's coordinates,
which on the receive-table rejection path may lack `id` and `date`. -/
def MqttState.errorInfo (encode : BusMessage → String) (now : Nat) (st : MqttState)
    (sender table : String) (id : Option String) (date : Option Nat)
    (message : String) : Except String MqttState :=
  MqttState.publish encode now st ("/info/" ++ sender)
    (.infoError st.clientName table id date message) (some sender)

/-- `workRemoteClientQueue(clientName)` loop body, fueled: poll the peer's
durable queue; stop on `null`; otherwise publish the item for that peer and
stop as soon as the peer's presence has lapsed. The queue map entry is
created empty when absent, matching the lazily constructed
`HardDiskQueue` over the same file. -/
def workRemoteClientQueueFuel (encode : BusMessage → String) (now : Nat) :
    Nat → MqttState → String → Except String MqttState
  | 0, st, _ => .ok st
  | fuel + 1, st, client =>
    match HardDiskQueue.poll ((lookupAssoc st.remoteClientQueues client).getD []) with
    | (none, _) => .ok st
    | (some item, rest) =>
      let st1 := { st with remoteClientQueues := setAssoc st.remoteClientQueues client rest }
      match MqttState.publish encode now st1 item.topic item.payload (some client) with
      | .error e => .error e
      | .ok st2 =>
        if !isClientConnected st2.connectedClients now client then
          .ok st2
        else
          workRemoteClientQueueFuel encode now fuel st2 client

/-- `workRemoteClientQueue(clientName)`: drain the peer's queue. One poll per
queued item suffices as fuel (a re-queued item means presence lapsed, which
ends the loop), plus one for the final `null` poll. -/
def workRemoteClientQueue (encode : BusMessage → String) (now : Nat)
    (st : MqttState) (client : String) : Except String MqttState :=
  workRemoteClientQueueFuel encode now
    (((lookupAssoc st.remoteClientQueues client).getD []).length + 1) st client

/-- JS `String.prototype.startsWith` on the character sequences. -/
def strStartsWith (s pre : String) : Bool := listPrefixOf pre.data s.data
where
  listPrefixOf : List Char → List Char → Bool
    | [], _ => true
    | _ :: _, [] => false
    | a :: as, b :: bs => a == b && listPrefixOf as bs

/-- `receivedMessage(topic, rawPayload)`: the inbound dispatch. Returns the
updated manager state and the application events emitted, in order. Invalid
payloads are dropped. On `/change/<self>`, a table outside the receive set
answers with an `error` info to the sender; otherwise `remote-change` is
emitted. On the info topics, own messages are ignored; `connected` records
presence and drains the peer's queue; `data_received` and `error` emit
`remote-status-change`; `connection_lost` deletes the presence entry. -/
def MqttState.receivedMessage (encode : BusMessage → String) (loadTime now : Nat)
    (st : MqttState) (topic : String) (payload : RawPayload) :
    Except String (MqttState × List AppEvent) :=
  if strStartsWith topic ("/change/" ++ st.clientName) then
    match payload with
    | .change c =>
      if !validateRemoteChange loadTime c then
        .ok (st, [])
      else if !(st.receiveTables.contains c.table) then
        match MqttState.errorInfo encode now st c.sender c.table c.id c.date
            "The table is not configured as receive table!" with
        | .error e => .error e
        | .ok st1 => .ok (st1, [])
      else
        .ok (st, [.remoteChange c])
    | .info _ =>
      -- an info-shaped object lacks `table`/`entity` and carries extra
      -- properties, so `remoteChangeScheme` validation fails
      .ok (st, [])
  else if topic == "/info" || topic == "/info/" ++ st.clientName then
    match payload with
    | .change _ =>
      -- a change-shaped object lacks `message`/`args`, so
      -- `infoMessageScheme` validation fails
      .ok (st, [])
    | .info i =>
      if !validateInfoMessage i then
        .ok (st, [])
      else if i.sender == st.clientName then
        .ok (st, [])
      else if i.message == "connected" then
        if !validateConnectedArgs loadTime i.args then
          .ok (st, [])
        else
          match i.args.untilTime with
          | none => .ok (st, [])
          | some untilTime =>
            let st1 := { st with
              connectedClients := setAssoc st.connectedClients i.sender untilTime }
            match workRemoteClientQueue encode now st1 i.sender with
            | .error e => .error e
            | .ok st2 => .ok (st2, [])
      else if i.message == "data_received" then
        if !validateDataReceivedArgs loadTime i.args then
          .ok (st, [])
        else
          .ok (st, [.remoteStatusChange
            { sender := i.sender, status := .successful, table := i.args.table,
              id := i.args.id, date := i.args.date, message := i.args.message }])
      else if i.message == "error" then
        if !validateErrorArgs loadTime i.args then
          .ok (st, [])
        else
          .ok (st, [.remoteStatusChange
            { sender := i.sender, status := .error, table := i.args.table,
              id := i.args.id, date := i.args.date, message := i.args.message }])
      else if i.message == "connection_lost" then
        .ok ({ st with connectedClients := removeAssoc st.connectedClients i.sender }, [])
      else
        .ok (st, [])
  else
    .ok (st, [])

/-! ## Database gateway (src/database/database-manager.ts `DatabaseManager`)

The MySQL server is embedded as the data the manager's queries read and
write: the primary-key column of each table (`SHOW COLUMNS ... WHERE Key =
'PRI'`), the table rows, the `table_changes` change log together with the
`mysqlSync*` AFTER-ROW triggers feeding it (installed by `setupDatabase` for
every table of the sync set), and the `sync_status` rows. `DATETIME` values
round-trip through `parseSqlDate` as their millisecond value. -/

/-- A `table_changes` row. -/
structure TableChangeRow where
  id : Nat
  table_name : String
  primary_key : String
  date : Nat
  deriving DecidableEq, Repr

/-- A `sync_status` row. `date` is the stored `DATETIME` in milliseconds. -/
structure SyncStatusRow where
  id : String
  table_name : String
  primary_key : String
  remote : String
  date : Nat
  status : SyncStatus
  message : Option String
  deriving DecidableEq, Repr

/-- The embedded database: schema primary keys, row data, the change log
(with its AUTO_INCREMENT counter) fed by the triggers on `triggeredTables`,
and the status rows. -/
structure Database where
  primaryKeys : List (String × String)
  rows : List (String × List SqlEntity)
  triggeredTables : List String
  nextChangeId : Nat
  tableChanges : List TableChangeRow
  syncStatus : List SyncStatusRow
  deriving DecidableEq, Repr

/-- Rows of a table (an unknown table reads as empty; the queries the claims
exercise never reach a missing table). -/
def Database.tableRows (db : Database) (table : String) : List SqlEntity :=
  (lookupAssoc db.rows table).getD []

/-- Replace the rows of a table. -/
def Database.setTableRows (db : Database) (table : String) (l : List SqlEntity) :
    Database :=
  { db with rows := setAssoc db.rows table l }

/-- `getPrimaryKey(table)`: `SHOW COLUMNS FROM table WHERE Key = 'PRI'`,
throwing when no column comes back. The per-table cache is write-once over an
immutable schema and therefore transparent. -/
def Database.getPrimaryKey (db : Database) (table : String) : Except String String :=
  match lookupAssoc db.primaryKeys table with
  | some k => .ok k
  | none => .error ("Table \"" ++ table ++ "\" does not have a primary key!")

/-- SQL `WHERE pk = ?` with the change's string id: the row's key cell equals
that string. -/
def rowMatches (pk id : String) (e : SqlEntity) : Bool :=
  entityGet e pk == some (.str id)

/-- The string form MySQL stores into `table_changes.primary_key` for a key
cell (`NEW.<pk>` / `OLD.<pk>` coerced to the VARCHAR column). -/
def sqlValueAsKey : Option SqlValue → String
  | some (.str s) => s
  | some (.num n) => toString n
  | _ => ""

/-- One trigger firing: INSERT INTO `table_changes` of `(table_name,
primary_key, NOW())` under the AUTO_INCREMENT id. -/
def Database.addChangeRow (db : Database) (now : Nat) (table key : String) : Database :=
  { db with
    tableChanges := db.tableChanges ++ [⟨db.nextChangeId, table, key, now⟩],
    nextChangeId := db.nextChangeId + 1 }

/-- The AFTER-ROW trigger fires once per affected row, in row order. -/
def Database.addChangeRows (db : Database) (now : Nat) (table : String) :
    List String → Database
  | [] => db
  | key :: rest => (db.addChangeRow now table key).addChangeRows now table rest

/-- The value of column `k` of a row after `UPDATE ... SET ?` with `entity`:
columns the entity carries take its value, others keep the old one
(`NEW.<k>` as the update trigger sees it). -/
def postUpdateGet (old new : SqlEntity) (k : String) : Option SqlValue :=
  match entityGet new k with
  | some v => some v
  | none => entityGet old k

/-- A matched row after `UPDATE ... SET ?` with `entity`. -/
def mergeEntity (old new : SqlEntity) : SqlEntity :=
  old.map (fun kv =>
    match entityGet new kv.1 with
    | some v => (kv.1, v)
    | none => kv)
  ++ new.filter (fun kv => (entityGet old kv.1).isNone)

/-- `SELECT COUNT(*) FROM table WHERE pk = id`. -/
def Database.countRows (db : Database) (table pk id : String) : Nat :=
  (db.tableRows table).countP (fun e => rowMatches pk id e)

/-- `INSERT INTO table(keys) VALUE (values)` with the entity, firing the
insert trigger when the table is in the sync set. -/
def Database.applyInsert (db : Database) (now : Nat) (table : String)
    (entity : SqlEntity) (pk : String) : Database :=
  let db1 := db.setTableRows table (db.tableRows table ++ [entity])
  if db.triggeredTables.contains table then
    db1.addChangeRows now table [sqlValueAsKey (entityGet entity pk)]
  else
    db1

/-- `UPDATE table SET ? WHERE pk = id` with the entity, firing the update
trigger once per matched row when the table is in the sync set. -/
def Database.applyUpdate (db : Database) (now : Nat) (table : String)
    (entity : SqlEntity) (pk id : String) : Database :=
  let matched := (db.tableRows table).filter (fun e => rowMatches pk id e)
  let db1 := db.setTableRows table
    ((db.tableRows table).map (fun e => if rowMatches pk id e then mergeEntity e entity else e))
  if db.triggeredTables.contains table then
    db1.addChangeRows now table
      (matched.map (fun e => sqlValueAsKey (postUpdateGet e entity pk)))
  else
    db1

/-- `DELETE FROM table WHERE pk = id`, firing the delete trigger once per
removed row when the table is in the sync set. -/
def Database.applyDelete (db : Database) (now : Nat) (table pk id : String) : Database :=
  let matched := (db.tableRows table).filter (fun e => rowMatches pk id e)
  let db1 := db.setTableRows table
    ((db.tableRows table).filter (fun e => !rowMatches pk id e))
  if db.triggeredTables.contains table then
    db1.addChangeRows now table (matched.map (fun e => sqlValueAsKey (entityGet e pk)))
  else
    db1

/-- The tail of `saveEntity`: for a table of the bidirectional set,
`DELETE FROM table_changes WHERE table_name = ? AND primary_key = ?` and then
the synthetic `local-change` carrying the original sender as `except`. -/
def bidiStep (bidirectionalTable : List String) (db : Database)
    (data : DatabaseChange) : Database × List AppEvent :=
  if bidirectionalTable.contains data.table then
    ({ db with
        tableChanges := db.tableChanges.filter
          (fun r => !(r.table_name == data.table && r.primary_key == data.id)) },
      [.localChange data.table data.id data.entity (some data.sender)])
  else
    (db, [])

/-- `saveEntity(data)` (the connected apply). Resolve the primary key (a
missing one throws). A non-null entity whose key cell differs from the sent
id (JS strict inequality) reports `local-save-failed` and stops. Otherwise
insert when no row matches, else update; a null entity deletes. Finally the
bidirectional step. Returns the database and the events emitted in order. -/
def Database.saveEntity (db : Database) (bidirectionalTable : List String)
    (now : Nat) (data : DatabaseChange) :
    Except String (Database × List AppEvent) :=
  match db.getPrimaryKey data.table with
  | .error e => .error e
  | .ok pk =>
    match data.entity with
    | some entity =>
      if !(entityGet entity pk == some (.str data.id)) then
        .ok (db, [.localSaveFailed data.sender data.table data.id data.date
          "Sent id does not match entity id!"])
      else if db.countRows data.table pk data.id == 0 then
        .ok (bidiStep bidirectionalTable (db.applyInsert now data.table entity pk) data)
      else
        .ok (bidiStep bidirectionalTable (db.applyUpdate now data.table entity pk data.id) data)
    | none =>
      .ok (bidiStep bidirectionalTable (db.applyDelete now data.table pk data.id) data)

/-- An entry of the `database` durable queue: either a queued change, or the
`{sender: '', table: 'sync_status', id: '', date: now, entity: data}`
envelope wrapping a status change. -/
inductive DbQueueItem where
  | change (data : DatabaseChange)
  | statusEnvelope (now : Nat) (data : StatusChangeMsg)
  deriving DecidableEq, Repr

/-- A `remote-status-change` payload (`DatabaseStatusChange`); the fields are
optional because the `error` info args schema requires none of them. -/
abbrev DatabaseStatusChange := StatusChangeMsg

/-- `createStatusId(table, id, remote)` hashes `table + '-' + id + '-' +
remote` with md5. The digest is modeled by the hashed string itself; the
claims depend only on equality of status ids. -/
def createStatusId (table id remote : String) : String :=
  table ++ "-" ++ id ++ "-" ++ remote

/-- JS `message || null`: an absent or empty message is stored as NULL. -/
def messageOrNull : Option String → Option String
  | none => none
  | some s => if s == "" then none else some s

/-- `setStatus(data)` (the `remote-status-change` listener). Disconnected:
queue the envelope. Connected: read the stored date for the status id; a
strictly newer stored date drops the update; otherwise INSERT (when no row
exists) or UPDATE (all rows with that id, of which the primary key admits at
most one) with the incoming date, status and message. An absent incoming
date compares as JS `NaN` (never greater, so it never drops); absent
coordinate fields are modeled as the empty string and date 0 — every claim
supplies them. -/
def Database.setStatus (db : Database) (connected : Bool)
    (queue : List DbQueueItem) (now : Nat) (data : DatabaseStatusChange) :
    Database × List DbQueueItem :=
  if !connected then
    (db, queue ++ [.statusEnvelope now data])
  else
    let statusId := createStatusId (data.table.getD "") (data.id.getD "") data.sender
    match db.syncStatus.find? (fun r => r.id == statusId) with
    | some row =>
      if decide (data.date.getD 0 < row.date) && data.date.isSome then
        (db, queue)
      else
        ({ db with
            syncStatus := db.syncStatus.map (fun r =>
              if r.id == statusId then
                { r with
                  date := data.date.getD 0
                  status := data.status
                  message := messageOrNull data.message }
              else r) },
          queue)
    | none =>
      ({ db with
          syncStatus := db.syncStatus ++
            [⟨statusId, data.table.getD "", data.id.getD "", data.sender,
              data.date.getD 0, data.status, messageOrNull data.message⟩] },
        queue)

/-- `remoteChange(data)` (the `local-save-change` listener). Disconnected:
queue the change and report `local-save-failed`. Connected: run `saveEntity`;
a normal return is followed by `local-save-successful`, a thrown exception
becomes `local-save-failed` with the exception's message. -/
def Database.remoteChange (db : Database) (connected : Bool)
    (bidirectionalTable : List String) (queue : List DbQueueItem) (now : Nat)
    (data : DatabaseChange) : Database × List DbQueueItem × List AppEvent :=
  if !connected then
    (db, queue ++ [.change data],
      [.localSaveFailed data.sender data.table data.id data.date
        "Could not connect to database"])
  else
    match db.saveEntity bidirectionalTable now data with
    | .ok (db', evs) =>
      (db', queue,
        evs ++ [.localSaveSuccessful data.sender data.table data.id data.date])
    | .error msg =>
      (db, queue, [.localSaveFailed data.sender data.table data.id data.date msg])

/-! ## Transformer stage (src/transformer.ts `TransformerManager`) -/

/-- The `context` argument a transformer receives. The `database` and `mqtt`
handles it also carries are external I/O capabilities with no bearing on the
returned entity and are omitted from the embedding. -/
structure TransformerContext where
  entity : Option SqlEntity
  source : String
  target : String

/-- What a transformer call returns: an entity (or `null`) directly, or a
Promise ( an object with `then` and `catch`) resolving to one. -/
inductive TransformerResult where
  | direct (value : Option SqlEntity)
  | promised (value : Option SqlEntity)

/-- A per-table transformer plug-in. -/
abbrev Transformer := TransformerContext → TransformerResult

/-- The value a transformer result resolves to. -/
def TransformerResult.resolve : TransformerResult → Option SqlEntity
  | .direct v => v
  | .promised v => v

/-- `transformEntity(table, entity, source, target)`. `transformers` stands
for `findTransformer`: the file lookup by camel-cased table name in the
transformer directory, `none` when no transformer file exists (or no
directory is configured); its per-table cache is transparent. A falsy direct
result returns `null` before the Promise check; a Promise result is awaited
and returned. Without a transformer the entity passes unchanged. -/
def transformEntity (transformers : String → Option Transformer) (table : String)
    (entity : Option SqlEntity) (source target : String) : Option SqlEntity :=
  match transformers table with
  | some transformer =>
    match transformer { entity := entity, source := source, target := target } with
    | .direct none => none
    | .direct (some e) => some e
    | .promised p => p
  | none => entity

/-- `onLocalChange(table, id, entity, except?)`: for every configured remote
client other than `except`, transform the entity from this node to that
client and emit `remote-send-change`. -/
def onLocalChange (transformers : String → Option Transformer)
    (remoteClients : List String) (clientName : String) (table id : String)
    (entity : Option SqlEntity) (except : Option String) : List AppEvent :=
  remoteClients.flatMap (fun client =>
    if some client == except then
      []
    else
      [.remoteSendChange table id
        (transformEntity transformers table entity clientName client) client])

/-- `onRemoteChange(data)`: transform the incoming entity from its sender to
this node and emit one `local-save-change` with the transformed entity
spread over the incoming change. -/
def onRemoteChange (transformers : String → Option Transformer)
    (clientName : String) (data : DatabaseChange) : List AppEvent :=
  [.localSaveChange
    { data with
      entity := transformEntity transformers data.table data.entity data.sender clientName }]

/-- A concrete injective stand-in for `JSON.stringify`, used when the
gateway is evaluated on concrete inputs; the embedding treats serialization
as an opaque `encode` argument. -/
def sampleEncode : BusMessage → String
  | .infoConnected s u => "connected|" ++ s ++ "|" ++ toString u
  | .infoConnectionLost s => "connection_lost|" ++ s
  | .infoDataReceived s t i d =>
    "data_received|" ++ s ++ "|" ++ t ++ "|" ++ i.getD "" ++ "|" ++ toString (d.getD 0)
  | .infoError s t i d m =>
    "error|" ++ s ++ "|" ++ t ++ "|" ++ i.getD "" ++ "|" ++ toString (d.getD 0) ++ "|" ++ m
  | .change s t i e d =>
    "change|" ++ s ++ "|" ++ t ++ "|" ++ i ++ "|" ++ toString d ++ "|" ++ toString e.isSome

/-- A concrete gateway state (client `ab`, update interval 1000 ms, receive
set `["t"]`, peer `cd` present until instant 10) used to evaluate the
embedding on concrete inputs. -/
def sampleMqttState : MqttState :=
  { clientName := "ab"
    updateInterval := 1000
    receiveTables := ["t"]
    connection := true
    connectedClients := [("cd", 10)]
    remoteClientQueues := []
    nextActiveUpdate := none
    published := [] }

/-- A concrete transformer returning its context entity directly, for
evaluating the transformer stage. -/
def sampleTransformer : Transformer := fun ctx => .direct ctx.entity

/-- A concrete transformer lookup: table `t` has `sampleTransformer`, no
other table has a transformer file. -/
def sampleTransformers : String → Option Transformer :=
  fun table => if table == "t" then some sampleTransformer else none

/-- A concrete incoming change from peer `cd` for table `t`, row `u1`. -/
def sampleChange : DatabaseChange :=
  { sender := "cd"
    table := "t"
    id := "u1"
    date := 5
    entity := some [("id", SqlValue.str "u1"), ("name", SqlValue.str "x")] }

/-- A concrete database: table `t` with primary-key column `id`, empty, with
triggers installed for `t`, no pending change-log rows and no status rows. -/
def sampleDb : Database :=
  { primaryKeys := [("t", "id")]
    rows := [("t", [])]
    triggeredTables := ["t"]
    nextChangeId := 0
    tableChanges := []
    syncStatus := [] }

/-- A concrete stored status row: `(t, u1, cd)` successful at date 5. -/
def sampleStatusRow : SyncStatusRow :=
  { id := createStatusId "t" "u1" "cd"
    table_name := "t"
    primary_key := "u1"
    remote := "cd"
    date := 5
    status := .successful
    message := none }

/-- A concrete incoming status update for the same `(t, u1, cd)` triple:
an error, also at date 5. -/
def sampleStatusData : DatabaseStatusChange :=
  { sender := "cd"
    status := .error
    table := some "t"
    id := some "u1"
    date := some 5
    message := some "boom" }

/-- A concrete incoming change whose sent id `u1` differs from the entity's
primary-key value `u2`. -/
def sampleMismatchChange : DatabaseChange :=
  { sender := "cd"
    table := "t"
    id := "u1"
    date := 5
    entity := some [("id", SqlValue.str "u2")] }

/-- A date-bearing JSON field strictly below the schema's recorded minimum
(absent fields never qualify). -/
def earlyOpt (loadTime : Nat) : Option Nat → Bool
  | none => false
  | some d => decide (d < loadTime)

/-- The hypothesis of claim C9: an inbound message on a subscribed topic
carrying, in a schema-validated date position, a value earlier than the
schema module's load time — a change message's `date`, a `connected`
message's `args.until`, or a `data_received`/`error` message's `args.date`. -/
def carriesEarlyDate (loadTime : Nat) (clientName topic : String)
    (payload : RawPayload) : Bool :=
  (topic == "/change/" ++ clientName
    && (match payload with
        | .change c => earlyOpt loadTime c.date
        | .info _ => false))
  || ((topic == "/info" || topic == "/info/" ++ clientName)
    && (match payload with
        | .info i =>
          (i.message == "connected" && earlyOpt loadTime i.args.untilTime)
          || ((i.message == "data_received" || i.message == "error")
              && earlyOpt loadTime i.args.date)
        | .change _ => false))

/-- A concrete change payload whose `sender` is this node's own name and
which omits `id` and `date`. -/
def sampleSelfChange : RawChange :=
  { sender := "ab"
    table := "t"
    id := none
    date := none
    entity := none }

/-! # Theorems -/

theorem lookupAssoc_setAssoc_self {β : Type} (l : List (String × β)) (k : String)
    (v : β) : lookupAssoc (setAssoc l k v) k = some v := by
  induction l with
  | nil => simp [setAssoc, lookupAssoc]
  | cons p rest ih =>
    obtain ⟨k', v'⟩ := p
    by_cases h : (k' == k) = true
    · simp [setAssoc, lookupAssoc, h]
    · simp only [Bool.not_eq_true] at h
      simp [setAssoc, lookupAssoc, h, ih]

theorem lookupAssoc_setAssoc_ne {β : Type} (l : List (String × β)) (k other : String)
    (v : β) (hne : other ≠ k) :
    lookupAssoc (setAssoc l k v) other = lookupAssoc l other := by
  induction l with
  | nil =>
    simp only [setAssoc, lookupAssoc]
    have : (k == other) = false := by
      simp only [beq_eq_false_iff_ne, ne_eq]
      exact fun h => hne h.symm
    simp [this]
  | cons p rest ih =>
    obtain ⟨k', v'⟩ := p
    by_cases h : (k' == k) = true
    · have hk : k' = k := by simpa using h
      have hko : (k' == other) = false := by
        simp only [beq_eq_false_iff_ne, ne_eq, hk]
        exact fun hh => hne hh.symm
      simp [setAssoc, h, lookupAssoc, hko]
    · simp only [Bool.not_eq_true] at h
      simp [setAssoc, lookupAssoc, h, ih]

theorem HardDiskQueue.pollAllFuel_of_length_le {α : Type} :
    ∀ (fuel : Nat) (q : List α), q.length ≤ fuel → pollAllFuel fuel q = q := by
  intro fuel
  induction fuel with
  | zero =>
    intro q hq
    cases q with
    | nil => rfl
    | cons x rest => simp at hq
  | succ n ih =>
    intro q hq
    cases q with
    | nil => rfl
    | cons x rest =>
      simp only [pollAllFuel, poll]
      simp only [List.length_cons, Nat.succ_le_succ_iff] at hq
      rw [ih rest hq]

theorem HardDiskQueue.pollAll_eq {α : Type} (q : List α) : pollAll q = q :=
  pollAllFuel_of_length_le q.length q (Nat.le_refl _)

theorem HardDiskQueue.foldl_push {α : Type} :
    ∀ (xs : List α) (acc : List α), xs.foldl push acc = acc ++ xs := by
  intro xs
  induction xs with
  | nil => intro acc; simp
  | cons x rest ih =>
    intro acc
    simp only [List.foldl_cons, push, ih, List.append_assoc, List.singleton_append]

/-- C8: the durable queue is FIFO: `push` appends, `poll` removes and returns
the head (or reports `null` on the empty queue, leaving it empty), and a
sequence of pushed items is returned by successive polls in push order. -/
theorem c8_queue_fifo {α : Type} (q rest : List α) (x y : α) (xs : List α) :
    HardDiskQueue.push q x = q ++ [x]
    ∧ HardDiskQueue.poll ([] : List α) = (none, [])
    ∧ HardDiskQueue.poll (y :: rest) = (some y, rest)
    ∧ HardDiskQueue.pollAll (xs.foldl HardDiskQueue.push []) = xs := by
  refine ⟨rfl, rfl, rfl, ?_⟩
  rw [HardDiskQueue.foldl_push, List.nil_append, HardDiskQueue.pollAll_eq]

/-- C2: `publish(topic, payload, remotePeer)` with a non-null remote peer:
when the peer is not presently connected (no presence entry, or the instant
has reached its expiry) nothing is published and exactly one item
`(topic, payload)` is appended to that peer's durable queue, all other
queues and the presence map untouched; when the peer is connected the
JSON-encoded payload is published and the queues are untouched. -/
theorem c2_publish_presence_gate (encode : BusMessage → String) (now : Nat)
    (st : MqttState) (topic : String) (payload : BusMessage) (rc : String)
    (hconn : st.connection = true) :
    (isClientConnected st.connectedClients now rc = false →
      ∃ st', MqttState.publish encode now st topic payload (some rc) = .ok st'
        ∧ st'.published = st.published
        ∧ st'.connectedClients = st.connectedClients
        ∧ lookupAssoc st'.remoteClientQueues rc
            = some ((lookupAssoc st.remoteClientQueues rc).getD [] ++ [⟨topic, payload⟩])
        ∧ (∀ other, other ≠ rc →
            lookupAssoc st'.remoteClientQueues other
              = lookupAssoc st.remoteClientQueues other))
    ∧ (isClientConnected st.connectedClients now rc = true →
      MqttState.publish encode now st topic payload (some rc)
        = .ok { st with published := st.published ++ [(topic, encode payload)] }) := by
  constructor
  · intro hoff
    refine ⟨{ st with
        remoteClientQueues :=
          setAssoc st.remoteClientQueues rc
            (HardDiskQueue.push ((lookupAssoc st.remoteClientQueues rc).getD [])
              ⟨topic, payload⟩) }, ?_, ?_, ?_, ?_, ?_⟩
    · simp [MqttState.publish, hconn, hoff]
    · rfl
    · rfl
    · simp [HardDiskQueue.push, lookupAssoc_setAssoc_self]
    · intro other hother
      exact lookupAssoc_setAssoc_ne _ _ _ _ hother
  · intro hon
    simp [MqttState.publish, hconn, hon]

/-- C2 witness: evaluating `publish` with an offline peer (`qq`, absent from
presence) and an online peer (`cd`, expiry 10 at instant 5). -/
theorem c2_publish_presence_gate_witness :
    (∃ st', MqttState.publish sampleEncode 5 sampleMqttState
        "/change/qq" (.infoConnectionLost "ab") (some "qq") = .ok st'
      ∧ st'.published = []
      ∧ lookupAssoc st'.remoteClientQueues "qq"
          = some [⟨"/change/qq", .infoConnectionLost "ab"⟩])
    ∧ MqttState.publish sampleEncode 5 sampleMqttState
        "/change/cd" (.infoConnectionLost "ab") (some "cd")
      = .ok { sampleMqttState with
          published := [("/change/cd", sampleEncode (.infoConnectionLost "ab"))] } := by
  constructor
  · obtain ⟨st', heq, hpub, _hcc, hq, _⟩ :=
      (c2_publish_presence_gate sampleEncode 5 sampleMqttState
        "/change/qq" (.infoConnectionLost "ab") "qq" rfl).1 (by decide)
    exact ⟨st', heq, hpub, by simpa [sampleMqttState] using hq⟩
  · have h := (c2_publish_presence_gate sampleEncode 5 sampleMqttState
      "/change/cd" (.infoConnectionLost "ab") "cd" rfl).2 (by decide)
    simpa [sampleMqttState] using h

/-- C7 counterexample: at instant 1 with `updateInterval = 1000` and
`nextActiveUpdate = 0` in the past, the tick publishes a `connected` message
on `/info` whose `args.until` is `now + 2·updateInterval + 3000 = 5001`, not
`now + 2·updateInterval + 1000 = 3001` as the claim states. -/
theorem c7_until_formula_counterexample :
    MqttState.tick sampleEncode 1 true { sampleMqttState with nextActiveUpdate := some 0 }
        = .ok { sampleMqttState with
            nextActiveUpdate := some 3001
            published := [("/info", sampleEncode (.infoConnected "ab" (1 + 2 * 1000 + 3000)))] }
      ∧ sampleEncode (.infoConnected "ab" (1 + 2 * 1000 + 3000))
          ≠ sampleEncode (.infoConnected "ab" (1 + 2 * 1000 + 1000)) := by
  constructor
  · rfl
  · decide

/-- C7 (amended): whenever a tick (with the manager initialized and the bus
connected) finds the current instant past `nextActiveUpdate`, the gateway
publishes a `connected` message on `/info` whose `args.until` equals
`now + 2·updateInterval + 3000` milliseconds and sets `nextActiveUpdate` to
`now + updateInterval + 2000` milliseconds. -/
theorem c7_tick_connected_update (encode : BusMessage → String) (now t : Nat)
    (st : MqttState) (hconn : st.connection = true)
    (hnext : st.nextActiveUpdate = some t) (hpast : now > t) :
    MqttState.tick encode now true st
      = .ok { st with
          nextActiveUpdate := some (now + st.updateInterval + 2000)
          published := st.published
            ++ [("/info", encode (.infoConnected st.clientName
                  (now + 2 * st.updateInterval + 3000)))] } := by
  have harith : now + st.updateInterval + 2000 + st.updateInterval + 1000
      = now + 2 * st.updateInterval + 3000 := by ring
  simp only [MqttState.tick, hconn, hnext, Bool.not_true, Bool.false_eq_true, if_false,
    Bool.not_false, if_true, MqttState.sendConnectedUpdate, MqttState.publish, harith]
  simp [hpast]

/-- C7 witness: the amended formula evaluated at instant 1 with update
interval 1000 and a lapsed `nextActiveUpdate`. -/
theorem c7_tick_connected_update_witness :
    MqttState.tick sampleEncode 1 true { sampleMqttState with nextActiveUpdate := some 0 }
      = .ok { sampleMqttState with
          nextActiveUpdate := some (1 + 1000 + 2000)
          published := [("/info", sampleEncode (.infoConnected "ab" (1 + 2 * 1000 + 3000)))] } := by
  have h := c7_tick_connected_update sampleEncode 1 0
    { sampleMqttState with nextActiveUpdate := some 0 } rfl rfl (by decide)
  simpa [sampleMqttState] using h

/-- C5: on `remote-change` the transformer stage emits exactly one
`local-save-change` whose fields equal the incoming change except `entity`;
the entity is the value the table's transformer's (possibly promised) result
resolves to — the transformer invoked with `source = change.sender` and
`target = this node's name` — or the untransformed incoming entity when no
transformer exists for the table. -/
theorem c5_remote_change_transform (transformers : String → Option Transformer)
    (clientName : String) (data : DatabaseChange) :
    (∃ d', onRemoteChange transformers clientName data = [.localSaveChange d']
      ∧ d'.sender = data.sender ∧ d'.table = data.table ∧ d'.id = data.id
      ∧ d'.date = data.date
      ∧ d'.entity = transformEntity transformers data.table data.entity
          data.sender clientName)
    ∧ (∀ f, transformers data.table = some f →
        transformEntity transformers data.table data.entity data.sender clientName
          = (f { entity := data.entity
                 source := data.sender
                 target := clientName }).resolve)
    ∧ (transformers data.table = none →
        transformEntity transformers data.table data.entity data.sender clientName
          = data.entity) := by
  refine ⟨⟨_, rfl, rfl, rfl, rfl, rfl, rfl⟩, ?_, ?_⟩
  · intro f hf
    simp only [transformEntity, hf]
    cases hr : f { entity := data.entity, source := data.sender, target := clientName } with
    | direct v =>
      cases v with
      | none => simp [TransformerResult.resolve]
      | some e => simp [TransformerResult.resolve]
    | promised p => simp [TransformerResult.resolve]
  · intro h
    simp [transformEntity, h]

/-- C5 witness: the stage evaluated on `sampleChange` with the transformer
configured for table `t` and with the transformer-less table `u`. -/
theorem c5_remote_change_transform_witness :
    (∃ d', onRemoteChange sampleTransformers "ab" sampleChange = [.localSaveChange d']
      ∧ d'.entity = transformEntity sampleTransformers "t" sampleChange.entity "cd" "ab")
    ∧ transformEntity sampleTransformers "t" sampleChange.entity "cd" "ab"
        = (sampleTransformer { entity := sampleChange.entity
                               source := "cd"
                               target := "ab" }).resolve
    ∧ transformEntity sampleTransformers "u" sampleChange.entity "cd" "ab"
        = sampleChange.entity := by
  refine ⟨?_, ?_, ?_⟩
  · obtain ⟨d', he, _, ht, _, _, hent⟩ :=
      (c5_remote_change_transform sampleTransformers "ab" sampleChange).1
    exact ⟨d', he, by rw [hent]; rfl⟩
  · exact (c5_remote_change_transform sampleTransformers "ab" sampleChange).2.1
      sampleTransformer rfl
  · exact (c5_remote_change_transform sampleTransformers "ab"
      { sampleChange with table := "u" }).2.2 rfl

theorem find?_map_update (upd : SyncStatusRow → SyncStatusRow) (sid : String)
    (hid : ∀ r, (upd r).id = r.id) :
    ∀ (l : List SyncStatusRow) (row : SyncStatusRow),
      l.find? (fun r => r.id == sid) = some row →
      (l.map (fun r => if r.id == sid then upd r else r)).find? (fun r => r.id == sid)
        = some (upd row) := by
  intro l
  induction l with
  | nil => intro row h; simp at h
  | cons r rest ih =>
    intro row h
    by_cases hr : (r.id == sid) = true
    · rw [List.find?_cons_of_pos (p := fun r : SyncStatusRow => r.id == sid) rest hr] at h
      cases h
      simp only [List.map_cons, hr, if_true]
      have hp : ((upd r).id == sid) = true := by rw [hid r]; exact hr
      rw [List.find?_cons_of_pos (p := fun r : SyncStatusRow => r.id == sid) _ hp]
    · simp only [Bool.not_eq_true] at hr
      rw [List.find?_cons_of_neg (p := fun r : SyncStatusRow => r.id == sid) rest (by simp [hr])] at h
      simp only [List.map_cons, hr, Bool.false_eq_true, if_false]
      rw [List.find?_cons_of_neg (p := fun r : SyncStatusRow => r.id == sid) _ (by simp [hr])]
      exact ih row h

/-- C3 counterexample: with a stored status row for `(t, u1, cd)` at date 5
and an incoming status for the same triple whose date is also 5 (so stored
date ≥ incoming date), `setStatus` does not drop the update: it overwrites
the stored row's status and message, contradicting the claim that the stored
row stays unchanged. -/
theorem c3_equal_date_overwrites_counterexample :
    Database.setStatus { sampleDb with syncStatus := [sampleStatusRow] } true [] 99
        sampleStatusData
      = ({ sampleDb with
            syncStatus := [{ sampleStatusRow with
              status := SyncStatus.error
              message := some "boom" }] }, [])
    ∧ ({ sampleStatusRow with
          status := SyncStatus.error
          message := some "boom" } : SyncStatusRow) ≠ sampleStatusRow := by
  constructor
  · rfl
  · decide

/-- C3 (amended): for every `remote-status-change` processed while
connected, a stored row with the same status id and a strictly greater
stored date drops the update; otherwise the row is inserted (when absent) or
updated (when present) with the incoming date, status and message (an empty
incoming message is stored as NULL), so the stored date for a fixed status
id never decreases. -/
theorem c3_status_monotonic (db : Database) (queue : List DbQueueItem) (now : Nat)
    (data : DatabaseStatusChange) (t i : String) (d : Nat)
    (htab : data.table = some t) (hid : data.id = some i) (hdate : data.date = some d) :
    (∀ row, db.syncStatus.find? (fun r => r.id == createStatusId t i data.sender) = some row →
      (d < row.date → Database.setStatus db true queue now data = (db, queue))
      ∧ (row.date ≤ d →
        ∃ db', Database.setStatus db true queue now data = (db', queue)
          ∧ db'.syncStatus.find? (fun r => r.id == createStatusId t i data.sender)
              = some { row with
                  date := d
                  status := data.status
                  message := messageOrNull data.message })
      ∧ (∀ row', ((Database.setStatus db true queue now data).1).syncStatus.find?
            (fun r => r.id == createStatusId t i data.sender) = some row' →
          row.date ≤ row'.date))
    ∧ (db.syncStatus.find? (fun r => r.id == createStatusId t i data.sender) = none →
      Database.setStatus db true queue now data
        = ({ db with
            syncStatus := db.syncStatus
              ++ [⟨createStatusId t i data.sender, t, i, data.sender, d,
                  data.status, messageOrNull data.message⟩] }, queue)) := by
  have hguard : ∀ row : SyncStatusRow,
      (decide (data.date.getD 0 < row.date) && data.date.isSome)
        = decide (d < row.date) := by
    intro row; rw [hdate]; simp
  constructor
  · intro row hrow
    refine ⟨?_, ?_, ?_⟩
    · intro hlt
      simp only [Database.setStatus, Bool.not_true, Bool.false_eq_true, if_false,
        htab, hid, Option.getD_some, hrow, hguard row, hlt, decide_eq_true_eq, if_true]
    · intro hle
      have hnlt : decide (d < row.date) = false := by
        simp only [decide_eq_false_iff_not, not_lt]; exact hle
      refine ⟨{ db with
          syncStatus := db.syncStatus.map (fun r =>
            if r.id == createStatusId t i data.sender then
              { r with
                date := d
                status := data.status
                message := messageOrNull data.message }
            else r) }, ?_, ?_⟩
      · simp only [Database.setStatus, Bool.not_true, Bool.false_eq_true, if_false,
          htab, hid, Option.getD_some, hrow, hguard row, hnlt, Bool.false_and,
          Bool.false_eq_true, if_false, hdate]
      · exact find?_map_update
          (fun r => { r with
            date := d
            status := data.status
            message := messageOrNull data.message })
          (createStatusId t i data.sender) (fun r => rfl) db.syncStatus row hrow
    · intro row' hrow'
      by_cases hlt : d < row.date
      · have heq : Database.setStatus db true queue now data = (db, queue) := by
          simp only [Database.setStatus, Bool.not_true, Bool.false_eq_true, if_false,
            htab, hid, Option.getD_some, hrow, hguard row, hlt, decide_eq_true_eq, if_true]
        rw [heq] at hrow'
        simp only at hrow'
        rw [hrow] at hrow'
        cases hrow'
        exact Nat.le_refl _
      · have hle : row.date ≤ d := Nat.le_of_not_lt hlt
        have hnlt : decide (d < row.date) = false := by
          simp only [decide_eq_false_iff_not, not_lt]; exact hle
        have heq : Database.setStatus db true queue now data
            = ({ db with
                syncStatus := db.syncStatus.map (fun r =>
                  if r.id == createStatusId t i data.sender then
                    { r with
                      date := d
                      status := data.status
                      message := messageOrNull data.message }
                  else r) }, queue) := by
          simp only [Database.setStatus, Bool.not_true, Bool.false_eq_true, if_false,
            htab, hid, Option.getD_some, hrow, hguard row, hnlt, Bool.false_and,
            Bool.false_eq_true, if_false, hdate]
        rw [heq] at hrow'
        simp only at hrow'
        rw [find?_map_update
          (fun r => { r with
            date := d
            status := data.status
            message := messageOrNull data.message })
          (createStatusId t i data.sender) (fun r => rfl) db.syncStatus row hrow] at hrow'
        cases hrow'
        exact hle
  · intro hnone
    simp only [Database.setStatus, Bool.not_true, Bool.false_eq_true, if_false,
      htab, hid, hdate, Option.getD_some, hnone]

/-- C3 witness: the amended behavior evaluated on a stored row at date 5
against incoming dates 3 (older: dropped), 5 (equal: overwritten) and on an
empty status table (inserted). -/
theorem c3_status_monotonic_witness :
    Database.setStatus { sampleDb with syncStatus := [sampleStatusRow] } true [] 99
        { sampleStatusData with date := some 3 }
      = ({ sampleDb with syncStatus := [sampleStatusRow] }, [])
    ∧ (∃ db', Database.setStatus { sampleDb with syncStatus := [sampleStatusRow] } true [] 99
          sampleStatusData = (db', [])
        ∧ db'.syncStatus.find? (fun r => r.id == createStatusId "t" "u1" "cd")
            = some { sampleStatusRow with
                date := 5
                status := SyncStatus.error
                message := some "boom" })
    ∧ Database.setStatus sampleDb true [] 99 sampleStatusData
      = ({ sampleDb with
          syncStatus := [⟨createStatusId "t" "u1" "cd", "t", "u1", "cd", 5,
            SyncStatus.error, some "boom"⟩] }, []) := by
  refine ⟨?_, ?_, ?_⟩
  · exact (((c3_status_monotonic { sampleDb with syncStatus := [sampleStatusRow] } [] 99
      { sampleStatusData with date := some 3 } "t" "u1" 3 rfl rfl rfl).1
      sampleStatusRow (by decide)).1 (by decide))
  · obtain ⟨db', heq, hfind⟩ := (((c3_status_monotonic
      { sampleDb with syncStatus := [sampleStatusRow] } [] 99
      sampleStatusData "t" "u1" 5 rfl rfl rfl).1
      sampleStatusRow (by decide)).2.1 (by decide))
    exact ⟨db', heq, by simpa [messageOrNull, sampleStatusData] using hfind⟩
  · have h := (c3_status_monotonic sampleDb [] 99 sampleStatusData "t" "u1" 5
      rfl rfl rfl).2 (by decide)
    simpa [messageOrNull, sampleStatusData, sampleDb] using h

/-- C4: evaluating the connected apply at an id-mismatched change. The
claimed parts hold except one: no row is touched, no echo `local-change` is
emitted, and `local-save-failed` carries "Sent id does not match entity
id!" — but because `saveEntity` returns normally after that event,
`remoteChange` also emits `local-save-successful` for the same change,
contradicting the claim (and the spec's "and stop"). -/
theorem c4_id_mismatch_also_reports_success :
    Database.remoteChange sampleDb true ["t"] [] 99 sampleMismatchChange
      = (sampleDb, [],
        [.localSaveFailed "cd" "t" "u1" 5 "Sent id does not match entity id!",
          .localSaveSuccessful "cd" "t" "u1" 5]) := by
  rfl

theorem addChangeRows_filter (p : TableChangeRow → Bool) (now : Nat) (t : String) :
    ∀ (keys : List String) (db : Database),
      (∀ k ∈ keys, ∀ i d, p ⟨i, t, k, d⟩ = false) →
      (db.addChangeRows now t keys).tableChanges.filter p
        = db.tableChanges.filter p := by
  intro keys
  induction keys with
  | nil => intro db _; rfl
  | cons k rest ih =>
    intro db h
    simp only [Database.addChangeRows]
    rw [ih (db.addChangeRow now t k) (fun k' hk' => h k' (List.mem_cons_of_mem _ hk'))]
    simp only [Database.addChangeRow]
    rw [List.filter_append]
    have hk : p ⟨db.nextChangeId, t, k, now⟩ = false := h k (List.mem_cons_self _ _) _ _
    simp [hk]

theorem applyInsert_tableChanges_filter (db : Database) (now : Nat) (table : String)
    (entity : SqlEntity) (pk id : String)
    (hkey : entityGet entity pk = some (.str id)) :
    (db.applyInsert now table entity pk).tableChanges.filter
        (fun r => !(r.table_name == table && r.primary_key == id))
      = db.tableChanges.filter
        (fun r => !(r.table_name == table && r.primary_key == id)) := by
  simp only [Database.applyInsert]
  by_cases hc : db.triggeredTables.contains table = true
  · simp only [hc, if_true]
    rw [addChangeRows_filter]
    · rfl
    · intro k hk i d
      simp only [List.mem_singleton] at hk
      subst hk
      rw [hkey]
      simp [sqlValueAsKey]
  · simp only [Bool.not_eq_true] at hc
    simp only [hc, Bool.false_eq_true, if_false]
    rfl

theorem applyUpdate_tableChanges_filter (db : Database) (now : Nat) (table : String)
    (entity : SqlEntity) (pk id : String)
    (hkey : entityGet entity pk = some (.str id)) :
    (db.applyUpdate now table entity pk id).tableChanges.filter
        (fun r => !(r.table_name == table && r.primary_key == id))
      = db.tableChanges.filter
        (fun r => !(r.table_name == table && r.primary_key == id)) := by
  simp only [Database.applyUpdate]
  by_cases hc : db.triggeredTables.contains table = true
  · simp only [hc, if_true]
    rw [addChangeRows_filter]
    · rfl
    · intro k hk i d
      simp only [List.mem_map] at hk
      obtain ⟨e, _he, hkeq⟩ := hk
      rw [postUpdateGet, hkey] at hkeq
      subst hkeq
      simp [sqlValueAsKey]
  · simp only [Bool.not_eq_true] at hc
    simp only [hc, Bool.false_eq_true, if_false]
    rfl

theorem applyDelete_tableChanges_filter (db : Database) (now : Nat)
    (table pk id : String) :
    (db.applyDelete now table pk id).tableChanges.filter
        (fun r => !(r.table_name == table && r.primary_key == id))
      = db.tableChanges.filter
        (fun r => !(r.table_name == table && r.primary_key == id)) := by
  simp only [Database.applyDelete]
  by_cases hc : db.triggeredTables.contains table = true
  · simp only [hc, if_true]
    rw [addChangeRows_filter]
    · rfl
    · intro k hk i d
      simp only [List.mem_map] at hk
      obtain ⟨e, he, hkeq⟩ := hk
      rw [List.mem_filter] at he
      have : entityGet e pk = some (.str id) := by
        have := he.2
        rwa [rowMatches, beq_iff_eq] at this
      rw [this] at hkeq
      subst hkeq
      simp [sqlValueAsKey]
  · simp only [Bool.not_eq_true] at hc
    simp only [hc, Bool.false_eq_true, if_false]
    rfl

theorem onLocalChange_except (transformers : String → Option Transformer)
    (clientName table id : String) (entity : Option SqlEntity) (sender : String) :
    ∀ remoteClients : List String,
      onLocalChange transformers remoteClients clientName table id entity (some sender)
        = (remoteClients.filter (fun c => !(c == sender))).map
            (fun c => .remoteSendChange table id
              (transformEntity transformers table entity clientName c) c) := by
  intro remoteClients
  induction remoteClients with
  | nil => rfl
  | cons c rest ih =>
    simp only [onLocalChange] at ih ⊢
    by_cases hcs : c = sender
    · subst hcs
      have hb : (some c == some c) = true := by simp
      have hf : (!(c == c)) = false := by simp
      simp only [List.flatMap_cons, hb, if_true, List.nil_append, List.filter_cons, hf,
        Bool.false_eq_true, if_false, ih]
    · have hb : (some c == some sender) = false := by simp [hcs]
      have hf : (!(c == sender)) = true := by simp [hcs]
      simp only [List.flatMap_cons, hb, Bool.false_eq_true, if_false,
        List.singleton_append, List.filter_cons, hf, if_true, List.map_cons, ih]

/-- C1: for every `local-save-change` applied while connected whose table is
in the bidirectional set (and whose apply reaches the row operation: the
table has a primary key and a non-null entity's key cell equals the sent
id), the apply deletes every `table_changes` row matching `(table, id)` —
including the rows the apply's own trigger firings just produced — and emits
the synthetic `local-change` with `exceptSender` equal to the change's
sender (followed by the save confirmation); the transformer stage fans that
`local-change` out as one `remote-send-change` per configured remote client
except that sender. -/
theorem c1_bidirectional_echo (db : Database) (bidi : List String)
    (queue : List DbQueueItem) (now : Nat) (data : DatabaseChange) (pk : String)
    (transformers : String → Option Transformer) (remoteClients : List String)
    (clientName : String)
    (hpk : db.getPrimaryKey data.table = .ok pk)
    (hok : data.entity = none
      ∨ ∃ e, data.entity = some e ∧ entityGet e pk = some (.str data.id))
    (hbidi : bidi.contains data.table = true) :
    (∃ db', Database.remoteChange db true bidi queue now data
        = (db', queue,
          [.localChange data.table data.id data.entity (some data.sender),
            .localSaveSuccessful data.sender data.table data.id data.date])
      ∧ db'.tableChanges = db.tableChanges.filter
          (fun r => !(r.table_name == data.table && r.primary_key == data.id)))
    ∧ onLocalChange transformers remoteClients clientName data.table data.id
        data.entity (some data.sender)
      = (remoteClients.filter (fun c => !(c == data.sender))).map
          (fun c => .remoteSendChange data.table data.id
            (transformEntity transformers data.table data.entity clientName c) c) := by
  constructor
  · cases hok with
    | inl hnone =>
      refine ⟨(bidiStep bidi (db.applyDelete now data.table pk data.id) data).1, ?_, ?_⟩
      · simp only [Database.remoteChange, Bool.not_true, Bool.false_eq_true, if_false,
          Database.saveEntity, hpk, hnone, bidiStep, hbidi, if_true]
        rfl
      · simp only [bidiStep, hbidi, if_true]
        exact applyDelete_tableChanges_filter db now data.table pk data.id
    | inr hsome =>
      obtain ⟨e, hent, hkey⟩ := hsome
      have hmatch : (entityGet e pk == some (.str data.id)) = true := by
        rw [hkey]; simp
      by_cases hcount : (db.countRows data.table pk data.id == 0) = true
      · refine ⟨(bidiStep bidi (db.applyInsert now data.table e pk) data).1, ?_, ?_⟩
        · simp only [Database.remoteChange, Bool.not_true, Bool.false_eq_true, if_false,
            Database.saveEntity, hpk, hent, hmatch, Bool.not_true, Bool.false_eq_true,
            if_false, hcount, if_true, bidiStep, hbidi]
          rfl
        · simp only [bidiStep, hbidi, if_true]
          exact applyInsert_tableChanges_filter db now data.table e pk data.id hkey
      · simp only [Bool.not_eq_true] at hcount
        refine ⟨(bidiStep bidi (db.applyUpdate now data.table e pk data.id) data).1, ?_, ?_⟩
        · simp only [Database.remoteChange, Bool.not_true, Bool.false_eq_true, if_false,
            Database.saveEntity, hpk, hent, hmatch, Bool.not_true, Bool.false_eq_true,
            if_false, hcount, if_true, bidiStep, hbidi]
          rfl
        · simp only [bidiStep, hbidi, if_true]
          exact applyUpdate_tableChanges_filter db now data.table e pk data.id hkey
  · exact onLocalChange_except transformers clientName data.table data.id data.entity
      data.sender remoteClients

/-- C1 witness: an incoming change from `cd` applied to the empty
bidirectional table `t` (an insert): the change-log ends free of `(t, u1)`
rows, the echo `local-change` carries `except = cd`, and with remote clients
`cd` and `ef` the fan-out reaches exactly `ef`. -/
theorem c1_bidirectional_echo_witness :
    (∃ db', Database.remoteChange sampleDb true ["t"] [] 99 sampleChange
        = (db', [],
          [.localChange "t" "u1" sampleChange.entity (some "cd"),
            .localSaveSuccessful "cd" "t" "u1" 5])
      ∧ db'.tableChanges = [])
    ∧ onLocalChange sampleTransformers ["cd", "ef"] "ab" "t" "u1"
        sampleChange.entity (some "cd")
      = [.remoteSendChange "t" "u1"
          (transformEntity sampleTransformers "t" sampleChange.entity "ab" "ef") "ef"] := by
  have h := c1_bidirectional_echo sampleDb ["t"] [] 99 sampleChange "id"
    sampleTransformers ["cd", "ef"] "ab" rfl
    (Or.inr ⟨_, rfl, rfl⟩) rfl
  obtain ⟨⟨db', heq, hfilter⟩, hfan⟩ := h
  constructor
  · exact ⟨db', heq, by simpa [sampleDb] using hfilter⟩
  · simpa using hfan

theorem strStartsWith_self (s : String) : strStartsWith s s = true := by
  cases s with
  | mk l =>
    show strStartsWith.listPrefixOf l l = true
    induction l with
    | nil => rfl
    | cons a as ih => simp [strStartsWith.listPrefixOf, ih]

theorem info_not_change_prefix (cn : String) :
    strStartsWith "/info" ("/change/" ++ cn) = false := by
  cases cn with
  | mk l => rfl

theorem info_client_not_change_prefix (cn cn' : String) :
    strStartsWith ("/info/" ++ cn) ("/change/" ++ cn') = false := by
  cases cn with
  | mk l =>
    cases cn' with
    | mk l' => rfl

/-- C10: a `/change/<self>` payload that omits `id` and `date` — with a
valid sender client name, a valid table name, any object-or-null entity —
passes validation, and when its table is in the receive set a
`remote-change` event is emitted whose `id` and `date` are undefined. -/
theorem c10_change_without_id_date (encode : BusMessage → String)
    (loadTime now : Nat) (st : MqttState) (c : RawChange)
    (hid : c.id = none) (hdate : c.date = none)
    (hs : validClientName c.sender = true) (ht : validTableName c.table = true)
    (hrecv : st.receiveTables.contains c.table = true) :
    MqttState.receivedMessage encode loadTime now st ("/change/" ++ st.clientName)
        (.change c)
      = .ok (st, [.remoteChange c])
    ∧ c.id = none ∧ c.date = none := by
  refine ⟨?_, hid, hdate⟩
  have hv : validateRemoteChange loadTime c = true := by
    simp [validateRemoteChange, hid, hdate, hs, ht, validOpt]
  simp only [MqttState.receivedMessage, strStartsWith_self, if_true, hv, Bool.not_true,
    Bool.false_eq_true, if_false, hrecv]

/-- C10 witness: the self-addressed change topic with `sampleSelfChange`
(no `id`, no `date`, sender `ab`, table `t`, null entity). -/
theorem c10_change_without_id_date_witness :
    MqttState.receivedMessage sampleEncode 0 5 sampleMqttState "/change/ab"
        (.change sampleSelfChange)
      = .ok (sampleMqttState, [.remoteChange sampleSelfChange]) := by
  have h := (c10_change_without_id_date sampleEncode 0 5 sampleMqttState
    sampleSelfChange rfl rfl (by decide) (by decide) (by decide)).1
  simpa [sampleMqttState] using h

/-- C6 counterexample: a `/change/<self>` message whose `sender` equals this
node's own client name is not ignored: with its table in the receive set it
is processed and `remote-change` is emitted, contradicting the claim that
every subscribed topic filters own messages. -/
theorem c6_change_topic_not_filtered_counterexample :
    MqttState.receivedMessage sampleEncode 0 5 sampleMqttState "/change/ab"
        (.change sampleSelfChange)
      = .ok (sampleMqttState, [.remoteChange sampleSelfChange])
    ∧ payloadSender (.change sampleSelfChange) = sampleMqttState.clientName
    ∧ ([AppEvent.remoteChange sampleSelfChange] : List AppEvent) ≠ [] := by
  refine ⟨?_, rfl, by decide⟩
  rfl

/-- C6 (amended): an inbound message on `/info` or `/info/<self>` whose
`sender` equals this node's own client name is ignored — no application
event is emitted and no presence or queue state changes. The `/change/<self>`
topic has no such filter: a self-sent change is dispatched normally. -/
theorem c6_info_own_messages_ignored (encode : BusMessage → String)
    (loadTime now : Nat) (st : MqttState) (topic : String) (payload : RawPayload)
    (htopic : topic = "/info" ∨ topic = "/info/" ++ st.clientName)
    (hsender : payloadSender payload = st.clientName) :
    MqttState.receivedMessage encode loadTime now st topic payload = .ok (st, []) := by
  have hpre : strStartsWith topic ("/change/" ++ st.clientName) = false := by
    rcases htopic with h | h
    · rw [h]; exact info_not_change_prefix st.clientName
    · rw [h]; exact info_client_not_change_prefix st.clientName st.clientName
  have htop2 : (topic == "/info" || topic == "/info/" ++ st.clientName) = true := by
    rcases htopic with h | h <;> simp [h]
  cases payload with
  | change c =>
    simp only [MqttState.receivedMessage, hpre, Bool.false_eq_true, if_false, htop2,
      if_true]
  | info i =>
    by_cases hv : validateInfoMessage i = true
    · have hself : (i.sender == st.clientName) = true := by
        simp only [payloadSender] at hsender
        simp [hsender]
      simp only [MqttState.receivedMessage, hpre, Bool.false_eq_true, if_false, htop2,
        if_true, hv, Bool.not_true, Bool.false_eq_true, hself]
    · simp only [Bool.not_eq_true] at hv
      simp only [MqttState.receivedMessage, hpre, Bool.false_eq_true, if_false, htop2,
        if_true, hv, Bool.not_false, if_true]

/-- C6 witness: a `connected` info message from `ab` received by node `ab`
itself on `/info` is dropped. -/
theorem c6_info_own_messages_ignored_witness :
    MqttState.receivedMessage sampleEncode 0 5 sampleMqttState "/info"
        (.info { sender := "ab"
                 message := "connected"
                 args := { untilTime := some 99
                           table := none
                           id := none
                           date := none
                           message := none } })
      = .ok (sampleMqttState, []) :=
  c6_info_own_messages_ignored sampleEncode 0 5 sampleMqttState "/info"
    (.info { sender := "ab"
             message := "connected"
             args := { untilTime := some 99
                       table := none
                       id := none
                       date := none
                       message := none } })
    (Or.inl rfl) rfl

/-- C9: the date constraint of the message schemas has its minimum fixed to
the instant the schema module was loaded, so every inbound message on a
subscribed topic carrying a validated date position — a change's `date`, a
`connected`'s `args.until`, a `data_received`/`error`'s `args.date` —
earlier than that load instant fails validation and is dropped: no event is
emitted and the state is unchanged. -/
theorem c9_early_date_dropped (encode : BusMessage → String) (loadTime now : Nat)
    (st : MqttState) (topic : String) (payload : RawPayload)
    (h : carriesEarlyDate loadTime st.clientName topic payload = true) :
    MqttState.receivedMessage encode loadTime now st topic payload = .ok (st, []) := by
  rw [carriesEarlyDate.eq_def] at h
  simp only [Bool.or_eq_true, Bool.and_eq_true] at h
  rcases h with ⟨htop, hp⟩ | ⟨htop, hp⟩
  · have ht : topic = "/change/" ++ st.clientName := eq_of_beq htop
    subst ht
    cases payload with
    | info i => simp at hp
    | change c =>
      dsimp only at hp
      cases hcd : c.date with
      | none => rw [hcd] at hp; simp [earlyOpt] at hp
      | some d =>
        rw [hcd] at hp
        have hd : d < loadTime := by simpa [earlyOpt] using hp
        have hdec : decide (loadTime ≤ d) = false := decide_eq_false (Nat.not_le.mpr hd)
        have hv : validateRemoteChange loadTime c = false := by
          simp [validateRemoteChange, hcd, validOpt, validDate, hdec]
        simp only [MqttState.receivedMessage, strStartsWith_self, if_true, hv,
          Bool.not_false, if_true]
  · have htop2 : (topic == "/info" || topic == "/info/" ++ st.clientName) = true := by
      rcases htop with hh | hh <;> simp [hh]
    have hpre : strStartsWith topic ("/change/" ++ st.clientName) = false := by
      rcases htop with hh | hh
      · rw [eq_of_beq hh]; exact info_not_change_prefix st.clientName
      · rw [eq_of_beq hh]; exact info_client_not_change_prefix st.clientName st.clientName
    cases payload with
    | change c => simp at hp
    | info i =>
      by_cases hv : validateInfoMessage i = true
      case neg =>
        simp only [Bool.not_eq_true] at hv
        simp only [MqttState.receivedMessage, hpre, Bool.false_eq_true, if_false, htop2,
          if_true, hv, Bool.not_false, if_true]
      case pos =>
        by_cases hself : (i.sender == st.clientName) = true
        · simp only [MqttState.receivedMessage, hpre, Bool.false_eq_true, if_false,
            htop2, if_true, hv, Bool.not_true, Bool.false_eq_true, if_false, hself,
            if_true]
        · simp only [Bool.not_eq_true] at hself
          dsimp only at hp
          simp only [Bool.or_eq_true, Bool.and_eq_true] at hp
          rcases hp with ⟨hmsg, hearly⟩ | ⟨hmsg2, hearly⟩
          · cases hcu : i.args.untilTime with
            | none => rw [hcu] at hearly; simp [earlyOpt] at hearly
            | some u =>
              rw [hcu] at hearly
              have hu : u < loadTime := by simpa [earlyOpt] using hearly
              have hdec : decide (loadTime ≤ u) = false :=
                decide_eq_false (Nat.not_le.mpr hu)
              have hva : validateConnectedArgs loadTime i.args = false := by
                simp [validateConnectedArgs, hcu, validReq, validDate, hdec]
              simp only [MqttState.receivedMessage, hpre, Bool.false_eq_true, if_false,
                htop2, if_true, hv, Bool.not_true, Bool.false_eq_true, if_false, hself,
                hmsg, if_true, hva, Bool.not_false]
          · cases hcd : i.args.date with
            | none => rw [hcd] at hearly; simp [earlyOpt] at hearly
            | some d =>
              rw [hcd] at hearly
              have hd : d < loadTime := by simpa [earlyOpt] using hearly
              have hdec : decide (loadTime ≤ d) = false :=
                decide_eq_false (Nat.not_le.mpr hd)
              rcases hmsg2 with hmsg | hmsg
              · have hmsgeq : i.message = "data_received" := eq_of_beq hmsg
                have hnc : (i.message == "connected") = false := by
                  rw [hmsgeq]; rfl
                have hva : validateDataReceivedArgs loadTime i.args = false := by
                  simp [validateDataReceivedArgs, hcd, validReq, validDate, hdec]
                simp only [MqttState.receivedMessage, hpre, Bool.false_eq_true, if_false,
                  htop2, if_true, hv, Bool.not_true, Bool.false_eq_true, if_false, hself,
                  hnc, hmsg, if_true, hva, Bool.not_false]
              · have hmsgeq : i.message = "error" := eq_of_beq hmsg
                have hnc : (i.message == "connected") = false := by
                  rw [hmsgeq]; rfl
                have hnd : (i.message == "data_received") = false := by
                  rw [hmsgeq]; rfl
                have hva : validateErrorArgs loadTime i.args = false := by
                  simp [validateErrorArgs, hcd, validOpt, validDate, hdec]
                simp only [MqttState.receivedMessage, hpre, Bool.false_eq_true, if_false,
                  htop2, if_true, hv, Bool.not_true, Bool.false_eq_true, if_false, hself,
                  hnc, hnd, hmsg, if_true, hva, Bool.not_false]

/-- C9 witness: at load instant 10, a change dated 3 on `/change/ab` and a
`connected` info from `cd` with `until = 3` on `/info` are both dropped with
no event and no state change. -/
theorem c9_early_date_dropped_witness :
    MqttState.receivedMessage sampleEncode 10 5 sampleMqttState "/change/ab"
        (.change { sampleSelfChange with
          sender := "cd"
          date := some 3 })
      = .ok (sampleMqttState, [])
    ∧ MqttState.receivedMessage sampleEncode 10 5 sampleMqttState "/info"
        (.info { sender := "cd"
                 message := "connected"
                 args := { untilTime := some 3
                           table := none
                           id := none
                           date := none
                           message := none } })
      = .ok (sampleMqttState, []) :=
  ⟨c9_early_date_dropped sampleEncode 10 5 sampleMqttState "/change/ab"
      (.change { sampleSelfChange with
        sender := "cd"
        date := some 3 }) (by decide),
    c9_early_date_dropped sampleEncode 10 5 sampleMqttState "/info"
      (.info { sender := "cd"
               message := "connected"
               args := { untilTime := some 3
                         table := none
                         id := none
                         date := none
                         message := none } }) (by decide)⟩

end MysqlSync
